import Mathlib

/-!
Verification of the Unity MCP gateway core (Python sources under
assets/UnityMCP/Python) against its natural-language specification.

The development shallowly embeds the parts of the source the claims are
about:

* core/command_handler.py : handler registry routing, the Unity command
  handler with its read-through TTL cache and size-bounded eviction;
* connection.py           : reconnect bookkeeping, the send_command
  retry-on-reset logic, and the 4-byte little-endian length-prefix framing
  with the accumulating receive loop;
* batch_tools.py / batch_operations.py : the batch executor and the
  asynchronous operation manager (the latter as an interleaving model
  whose atomic actions are the individual Python statements);
* error_reporter.py       : the bounded in-memory error sink.

Machine-independent conventions: wall-clock instants are natural numbers,
uuid generation is modelled as a fresh counter, socket and scheduler
nondeterminism is supplied by explicit environment parameters.
-/

namespace UnityMCP

/-! ## Python values

A small JSON-like value universe, as far as the gateway inspects values:
dictionary lookup, dictionary update, and Python truthiness. -/

inductive PyVal where
  | pyBool : Bool → PyVal
  | pyStr : String → PyVal
  | pyNum : Int → PyVal
  | pyObj : List (String × PyVal) → PyVal
deriving Repr

abbrev PyDict := List (String × PyVal)

/-- Association-list lookup, the embedding of a Python dict read. -/
def dictLookup (d : PyDict) (k : String) : Option PyVal :=
  match d with
  | [] => none
  | (k1, v) :: rest => if k1 = k then some v else dictLookup rest k

/-- `d.get(k, dflt)`. -/
def dictGetD (d : PyDict) (k : String) (dflt : PyVal) : PyVal :=
  (dictLookup d k).getD dflt

/-- Python truthiness for the embedded values. -/
def truthy : PyVal → Bool
  | .pyBool b => b
  | .pyStr s => !s.isEmpty
  | .pyNum n => n != 0
  | .pyObj l => !l.isEmpty

/-- `d[k] = v`: overwrite in place when the key is present (Python dicts
keep the insertion position), append otherwise. -/
def dictSet (d : PyDict) (k : String) (v : PyVal) : PyDict :=
  if (dictLookup d k).isSome then
    d.map (fun p => if p.1 = k then (k, v) else p)
  else d ++ [(k, v)]

/-! ## Dispatcher (core/command_handler.py)

`UnityCommandHandler.handle` with its cache, and
`CommandHandlerRegistry.get_handler` / `handle_command` routing. -/

/-- The `performance` section of core/config.py that the dispatcher reads. -/
structure PerformanceConfig where
  enable_caching : Bool
  cache_ttl : Nat
  max_cache_size : Nat

/-- Default values from core/config.py. -/
def cfgDefault : PerformanceConfig := ⟨true, 300, 1000⟩

/-- One entry of `UnityCommandHandler.command_cache`. -/
structure CacheEntry where
  result : PyDict
  timestamp : Nat
deriving Repr

/-- The cache dict, in Python insertion order. -/
abbrev Cache := List (String × CacheEntry)

/-- The four local command types of `CommandHandlerRegistry.get_handler`. -/
def localCommands : List String :=
  ["get_error_logs", "get_error_details", "clear_error_logs",
   "generate_api_documentation"]

/-- The `read_only_commands` allow-list of `UnityCommandHandler._is_cacheable`. -/
def readOnlyCommands : List String :=
  ["get_system_info", "get_scene_info", "get_object_info",
   "get_asset_categories", "search_asset_store", "search_polyhaven_assets",
   "get_assistant_insights", "get_creative_suggestions"]

/-- `UnityCommandHandler._is_cacheable`. -/
def is_cacheable (ctype : String) : Bool := readOnlyCommands.contains ctype

/-- `UnityCommandHandler._get_cache_key`; the parameter map appears through
its canonical JSON rendering `json.dumps(parameters, sort_keys=True)`. -/
def get_cache_key (ctype paramsJson : String) : String :=
  ctype ++ ":" ++ paramsJson

/-- `cache_key in self.command_cache` followed by the indexed read. -/
def cacheLookup (c : Cache) (k : String) : Option CacheEntry :=
  match c with
  | [] => none
  | (k1, e) :: rest => if k1 = k then some e else cacheLookup rest k

/-- `self.command_cache[cache_key] = entry`. -/
def cacheSet (c : Cache) (k : String) (e : CacheEntry) : Cache :=
  if (cacheLookup c k).isSome then
    c.map (fun p => if p.1 = k then (k, e) else p)
  else c ++ [(k, e)]

/-- The sort key of the eviction step: ascending timestamps.  Sorting the
entries is equivalent to sorting the keys because cache keys are unique. -/
def tsLe (a b : String × CacheEntry) : Prop :=
  a.2.timestamp ≤ b.2.timestamp

instance : DecidableRel tsLe := fun a b =>
  inferInstanceAs (Decidable (a.2.timestamp ≤ b.2.timestamp))

/-- The size-limit step of `UnityCommandHandler.handle`: when the cache
exceeds `max_cache_size`, sort the keys by timestamp (Python sorted is
stable, as is insertion sort) and delete the oldest surplus. -/
def cacheEvict (maxSize : Nat) (c : Cache) : Cache :=
  if maxSize < c.length then
    let olds := ((c.insertionSort tsLe).take (c.length - maxSize)).map Prod.fst
    c.filter (fun p => !olds.contains p.1)
  else c

/-- Insert/overwrite followed by the eviction step. -/
def cacheInsertEvict (maxSize : Nat) (k : String) (result : PyDict)
    (now : Nat) (c : Cache) : Cache :=
  cacheEvict maxSize (cacheSet c k ⟨result, now⟩)

/-- Outcome of one `UnityCommandHandler.handle` call: the returned dict,
the cache afterwards, and how many Transport calls were made. -/
structure HandleOutcome where
  result : PyDict
  cache : Cache
  transportCalls : Nat

/-- Environment: what `self.connection.send_command` would do if invoked
(return a dict, or raise with a message). -/
inductive TransportResult where
  | ok : PyDict → TransportResult
  | exn : String → TransportResult

/-- The failure dict built by the `except` clause of handle (the uuid
error id is abstracted to a placeholder). -/
def errDict (msg : String) : PyDict :=
  [("error", .pyStr msg), ("error_id", .pyStr "error-id"),
   ("success", .pyBool false)]

/-- The cached-result check at the top of `UnityCommandHandler.handle`:
a hit is a stored entry younger than `cache_ttl`. -/
def cacheFresh (cfg : PerformanceConfig) (cache : Cache) (now : Nat)
    (ctype paramsJson : String) : Option PyDict :=
  if cfg.enable_caching && is_cacheable ctype then
    match cacheLookup cache (get_cache_key ctype paramsJson) with
    | some e => if now - e.timestamp < cfg.cache_ttl then some e.result else none
    | none => none
  else none

/-- The cache write after a Transport response, guarded by caching being
enabled, the type being cacheable, and `result.get("success", False)`. -/
def cacheStore (cfg : PerformanceConfig) (cache : Cache) (now : Nat)
    (ctype paramsJson : String) (result : PyDict) : Cache :=
  if cfg.enable_caching && is_cacheable ctype &&
      truthy (dictGetD result "success" (.pyBool false)) then
    cacheInsertEvict cfg.max_cache_size (get_cache_key ctype paramsJson)
      result now cache
  else cache

/-- `UnityCommandHandler.handle`.  `hasConn` is whether a connection is
available after the ensure step (lines 70-79 of command_handler.py);
`now` is the value of `time.time()` during the call. -/
def unityHandle (cfg : PerformanceConfig) (hasConn : Bool) (cache : Cache)
    (transport : TransportResult) (now : Nat) (ctype paramsJson : String) :
    HandleOutcome :=
  match cacheFresh cfg cache now ctype paramsJson with
  | some r => ⟨r, cache, 0⟩
  | none =>
    if !hasConn then
      ⟨[("error", .pyStr "Failed to connect to Unity"),
        ("success", .pyBool false)], cache, 0⟩
    else
      match transport with
      | .exn msg => ⟨errDict ("Error handling command: " ++ msg), cache, 1⟩
      | .ok result =>
        ⟨result, cacheStore cfg cache now ctype paramsJson result, 1⟩

/-- Which handler class `CommandHandlerRegistry.get_handler` picks. -/
inductive HandlerKind where
  | specially
  | localH
  | defaultH
deriving Repr, DecidableEq

/-- `CommandHandlerRegistry.get_handler`: a specially registered handler
first, then the local-command list, then the default Unity handler. -/
def get_handler (registered : List String) (ctype : String) : HandlerKind :=
  if registered.contains ctype then .specially
  else if localCommands.contains ctype then .localH
  else .defaultH

/-- Result of `CommandHandlerRegistry.handle_command`.  The bodies of a
specially registered handler (none is ever installed in the source) and of
the LocalCommandHandler are outside the claims and stay abstract. -/
inductive DispatchOutcome where
  | viaRegistered
  | viaLocal
  | viaUnity (o : HandleOutcome)

/-- `CommandHandlerRegistry.handle_command`. -/
def handle_command (registered : List String) (cfg : PerformanceConfig)
    (hasConn : Bool) (cache : Cache) (transport : TransportResult)
    (now : Nat) (ctype paramsJson : String) : DispatchOutcome :=
  match get_handler registered ctype with
  | .specially => .viaRegistered
  | .localH => .viaLocal
  | .defaultH => .viaUnity (unityHandle cfg hasConn cache transport now ctype paramsJson)

/-- Transport calls made by the dispatched handler (0 for the abstract
branches, which never reach the Transport). -/
def dispatchCalls : DispatchOutcome → Nat
  | .viaUnity o => o.transportCalls
  | _ => 0

/-- The dict returned when the default Unity handler ran. -/
def dispatchResult : DispatchOutcome → Option PyDict
  | .viaUnity o => some o.result
  | _ => none

/-! ## Claim C1 -/

/-- C1 counterexample.  The claim says a command type with no specially
registered handler and not one of the four local commands yields the
`unknown command type` failure without a Transport call.  In the source,
`get_handler` falls through to the default Unity handler instead, which
forwards the command: for the unregistered, non-local type `foo` the
Transport is called once and its response is returned verbatim (no
`error` field, no `success:false`). -/
theorem handle_command_unknown_type_counterexample :
    get_handler [] "foo" = HandlerKind.defaultH ∧
    localCommands.contains "foo" = false ∧
    dispatchCalls (handle_command [] cfgDefault true []
      (.ok [("ok", .pyBool true)]) 0 "foo" "p") = 1 ∧
    ¬ dispatchCalls (handle_command [] cfgDefault true []
      (.ok [("ok", .pyBool true)]) 0 "foo" "p") = 0 ∧
    dispatchResult (handle_command [] cfgDefault true []
      (.ok [("ok", .pyBool true)]) 0 "foo" "p") =
      some [("ok", PyVal.pyBool true)] := by
  refine ⟨by decide, by decide, by decide, by decide, rfl⟩

/-- C1 amended: a command type with no specially registered handler and
not one of the four local commands is routed to the default Unity
handler; starting from an empty cache that handler makes exactly one
Transport call and returns the Transport response verbatim (or the
wrapped failure dict when the Transport raised).  No
`unknown command type` error exists at the dispatch layer. -/
theorem handle_command_unknown_type_forwards (registered : List String)
    (cfg : PerformanceConfig) (tr : TransportResult) (now : Nat)
    (ctype paramsJson : String)
    (hreg : registered.contains ctype = false)
    (hloc : localCommands.contains ctype = false) :
    get_handler registered ctype = HandlerKind.defaultH ∧
    handle_command registered cfg true [] tr now ctype paramsJson =
      DispatchOutcome.viaUnity (unityHandle cfg true [] tr now ctype paramsJson) ∧
    (unityHandle cfg true [] tr now ctype paramsJson).transportCalls = 1 ∧
    (∀ r, tr = .ok r →
      (unityHandle cfg true [] tr now ctype paramsJson).result = r) ∧
    (∀ m, tr = .exn m →
      (unityHandle cfg true [] tr now ctype paramsJson).result =
        errDict ("Error handling command: " ++ m)) := by
  have hget : get_handler registered ctype = HandlerKind.defaultH := by
    unfold get_handler
    rw [hreg, hloc]
    simp
  have hmiss : cacheFresh cfg [] now ctype paramsJson = none := by
    unfold cacheFresh
    cases cfg.enable_caching && is_cacheable ctype <;> simp [cacheLookup]
  refine ⟨hget, ?_, ?_, ?_, ?_⟩
  · unfold handle_command
    rw [hget]
  · cases tr <;> simp [unityHandle, hmiss]
  · intro r hr; subst hr; simp [unityHandle, hmiss]
  · intro m hm; subst hm; simp [unityHandle, hmiss]

/-- C1 amended witness at a concrete unregistered, non-local command. -/
theorem handle_command_unknown_type_forwards_witness :
    get_handler ["special_cmd"] "move_object" = HandlerKind.defaultH ∧
    handle_command ["special_cmd"] cfgDefault true []
        (.ok [("moved", .pyBool true)]) 7 "move_object" "pjson" =
      DispatchOutcome.viaUnity (unityHandle cfgDefault true []
        (.ok [("moved", .pyBool true)]) 7 "move_object" "pjson") ∧
    (unityHandle cfgDefault true [] (.ok [("moved", .pyBool true)]) 7
      "move_object" "pjson").transportCalls = 1 ∧
    (∀ r, TransportResult.ok [("moved", PyVal.pyBool true)] = .ok r →
      (unityHandle cfgDefault true [] (.ok [("moved", .pyBool true)]) 7
        "move_object" "pjson").result = r) ∧
    (∀ m, TransportResult.ok [("moved", PyVal.pyBool true)] = .exn m →
      (unityHandle cfgDefault true [] (.ok [("moved", .pyBool true)]) 7
        "move_object" "pjson").result =
        errDict ("Error handling command: " ++ m)) :=
  handle_command_unknown_type_forwards ["special_cmd"] cfgDefault
    (.ok [("moved", .pyBool true)]) 7 "move_object" "pjson"
    (by decide) (by decide)

/-! ## Claim C7 -/

/-- C7: with caching enabled, a cacheable command whose first dispatch
returns a `success:true` result is served from the cache on a repeat
dispatch within `cache_ttl` seconds — same dict verbatim, zero Transport
calls, cache unchanged — while a repeat after `cache_ttl` has elapsed
reaches the Transport again. -/
theorem cache_ttl_round_trip (cfg : PerformanceConfig)
    (ctype paramsJson : String) (r : PyDict) (t1 t2 : Nat)
    (tr2 : TransportResult)
    (hen : cfg.enable_caching = true)
    (hca : is_cacheable ctype = true)
    (hmax : 1 ≤ cfg.max_cache_size)
    (ht : t1 ≤ t2)
    (hsucc : truthy (dictGetD r "success" (.pyBool false)) = true) :
    (unityHandle cfg true [] (.ok r) t1 ctype paramsJson).result = r ∧
    (unityHandle cfg true [] (.ok r) t1 ctype paramsJson).transportCalls = 1 ∧
    (t2 - t1 < cfg.cache_ttl →
      (unityHandle cfg true
          (unityHandle cfg true [] (.ok r) t1 ctype paramsJson).cache
          tr2 t2 ctype paramsJson).result = r ∧
      (unityHandle cfg true
          (unityHandle cfg true [] (.ok r) t1 ctype paramsJson).cache
          tr2 t2 ctype paramsJson).transportCalls = 0 ∧
      (unityHandle cfg true
          (unityHandle cfg true [] (.ok r) t1 ctype paramsJson).cache
          tr2 t2 ctype paramsJson).cache =
        (unityHandle cfg true [] (.ok r) t1 ctype paramsJson).cache) ∧
    (cfg.cache_ttl ≤ t2 - t1 →
      (unityHandle cfg true
          (unityHandle cfg true [] (.ok r) t1 ctype paramsJson).cache
          tr2 t2 ctype paramsJson).transportCalls = 1) := by
  have hmiss : cacheFresh cfg [] t1 ctype paramsJson = none := by
    unfold cacheFresh
    cases cfg.enable_caching && is_cacheable ctype <;> simp [cacheLookup]
  have h1 : unityHandle cfg true [] (.ok r) t1 ctype paramsJson =
      ⟨r, [(get_cache_key ctype paramsJson, ⟨r, t1⟩)], 1⟩ := by
    have hnoev : cacheEvict cfg.max_cache_size
        [(get_cache_key ctype paramsJson, ⟨r, t1⟩)] =
        [(get_cache_key ctype paramsJson, ⟨r, t1⟩)] := by
      unfold cacheEvict
      simp [Nat.not_lt.mpr hmax]
    simp [unityHandle, hmiss, cacheStore, hen, hca, hsucc, cacheInsertEvict,
      cacheSet, cacheLookup, hnoev]
  rw [h1]
  refine ⟨rfl, rfl, ?_, ?_⟩
  · intro hfreshT
    have hhit : cacheFresh cfg [(get_cache_key ctype paramsJson, ⟨r, t1⟩)]
        t2 ctype paramsJson = some r := by
      unfold cacheFresh
      simp [hen, hca, cacheLookup, hfreshT]
    refine ⟨?_, ?_, ?_⟩ <;> simp [unityHandle, hhit]
  · intro hstaleT
    have hmiss2 : cacheFresh cfg [(get_cache_key ctype paramsJson, ⟨r, t1⟩)]
        t2 ctype paramsJson = none := by
      unfold cacheFresh
      simp [hen, hca, cacheLookup, Nat.not_lt.mpr hstaleT]
    cases tr2 <;> simp [unityHandle, hmiss2]

/-- C7 witness: `get_scene_info` dispatched at times 0, 100 (fresh) and
0, 300 (expired) under the default configuration. -/
theorem cache_ttl_round_trip_witness :
    (unityHandle cfgDefault true [] (.ok [("success", .pyBool true)]) 0
      "get_scene_info" "e").result = [("success", PyVal.pyBool true)] ∧
    (unityHandle cfgDefault true [] (.ok [("success", .pyBool true)]) 0
      "get_scene_info" "e").transportCalls = 1 ∧
    (100 - 0 < cfgDefault.cache_ttl →
      (unityHandle cfgDefault true
          (unityHandle cfgDefault true [] (.ok [("success", .pyBool true)]) 0
            "get_scene_info" "e").cache
          (.ok []) 100 "get_scene_info" "e").result =
        [("success", PyVal.pyBool true)] ∧
      (unityHandle cfgDefault true
          (unityHandle cfgDefault true [] (.ok [("success", .pyBool true)]) 0
            "get_scene_info" "e").cache
          (.ok []) 100 "get_scene_info" "e").transportCalls = 0 ∧
      (unityHandle cfgDefault true
          (unityHandle cfgDefault true [] (.ok [("success", .pyBool true)]) 0
            "get_scene_info" "e").cache
          (.ok []) 100 "get_scene_info" "e").cache =
        (unityHandle cfgDefault true [] (.ok [("success", .pyBool true)]) 0
          "get_scene_info" "e").cache) ∧
    (cfgDefault.cache_ttl ≤ 100 - 0 →
      (unityHandle cfgDefault true
          (unityHandle cfgDefault true [] (.ok [("success", .pyBool true)]) 0
            "get_scene_info" "e").cache
          (.ok []) 100 "get_scene_info" "e").transportCalls = 1) :=
  cache_ttl_round_trip cfgDefault "get_scene_info" "e"
    [("success", .pyBool true)] 0 100 (.ok []) (by decide) (by decide)
    (by decide) (by decide) (by decide)

/-! ## Claim C6 -/

/-- A lookup misses when no entry carries the key. -/
theorem cacheLookup_eq_none (c : Cache) (k : String)
    (h : ∀ p ∈ c, p.1 ≠ k) : cacheLookup c k = none := by
  induction c with
  | nil => rfl
  | cons p rest ih =>
    have hp : p.1 ≠ k := h p (List.mem_cons_self p rest)
    simp only [cacheLookup, if_neg hp]
    exact ih fun q hq => h q (List.mem_cons_of_mem p hq)

/-- `cacheFresh` misses whenever the key is absent. -/
theorem cacheFresh_of_lookup_none (cfg : PerformanceConfig) (cache : Cache)
    (now : Nat) (ctype paramsJson : String)
    (h : cacheLookup cache (get_cache_key ctype paramsJson) = none) :
    cacheFresh cfg cache now ctype paramsJson = none := by
  unfold cacheFresh
  cases cfg.enable_caching && is_cacheable ctype <;> simp [h]

/-- Writing an absent key appends the entry. -/
theorem cacheSet_of_lookup_none (c : Cache) (k : String) (e : CacheEntry)
    (h : cacheLookup c k = none) : cacheSet c k e = c ++ [(k, e)] := by
  unfold cacheSet
  rw [h]
  rfl

/-- No eviction happens at or below the size bound. -/
theorem cacheEvict_of_le (maxSize : Nat) (c : Cache)
    (h : c.length ≤ maxSize) : cacheEvict maxSize c = c := by
  unfold cacheEvict
  simp [Nat.not_lt.mpr h]

/-- One entry over the bound: the eviction step removes exactly the
oldest entry, which for a timestamp-sorted cache with distinct keys is
the head. -/
theorem cacheEvict_of_sorted_succ (maxSize : Nat) (c : Cache)
    (hlen : c.length = maxSize + 1)
    (hsort : c.Pairwise tsLe)
    (hkeys : (c.map Prod.fst).Nodup) :
    cacheEvict maxSize c = c.tail := by
  match c, hlen with
  | p :: tl, hlen =>
    have hlt : maxSize < (p :: tl).length := by omega
    have hsorted : (p :: tl).insertionSort tsLe = p :: tl :=
      List.Sorted.insertionSort_eq hsort
    have hone : (p :: tl).length - maxSize = 1 := by
      simp only [List.length_cons] at hlen ⊢
      omega
    have hhead : ∀ q ∈ tl, q.1 ≠ p.1 := by
      intro q hq
      have hno := (List.nodup_cons.mp hkeys).1
      intro hcontra
      exact hno (hcontra ▸ List.mem_map_of_mem Prod.fst hq)
    unfold cacheEvict
    rw [if_pos hlt, hsorted, hone]
    have htake : List.map Prod.fst (List.take 1 (p :: tl)) = [p.1] := by simp
    rw [htake, List.filter_cons]
    have h1 : (!([p.1].contains p.1)) = false := by simp
    rw [h1]
    simp only [Bool.false_eq_true, if_false, List.tail_cons]
    apply List.filter_eq_self.mpr
    intro q hq
    simp [hhead q hq]

/-- Removing the head via a drop index: list identity used to push the
eviction through the retained-suffix description. -/
theorem tail_drop_append (l : List (String × CacheEntry)) (j : Nat)
    (x : String × CacheEntry) :
    (l.drop j ++ [x]).tail = (l ++ [x]).drop (j + 1) := by
  induction l generalizing j with
  | nil => simp
  | cons a l ih =>
    cases j with
    | zero => simp
    | succ j => simpa using ih j

/-- One insertion the dispatcher performs for claim C6: the command type,
the canonical parameter rendering, the `success:true` Transport response
and the `time.time()` instant of the call. -/
structure CacheCall where
  ctype : String
  paramsJson : String
  response : PyDict
  now : Nat

/-- The cache key the call produces. -/
def callKey (c : CacheCall) : String := get_cache_key c.ctype c.paramsJson

/-- The cache entry the call stores. -/
def callEntry (c : CacheCall) : String × CacheEntry :=
  (callKey c, ⟨c.response, c.now⟩)

/-- Dispatch all calls in order through `UnityCommandHandler.handle`,
threading the cache. -/
def dispatchAll (cfg : PerformanceConfig) (calls : List CacheCall)
    (c0 : Cache) : Cache :=
  calls.foldl (fun acc call =>
    (unityHandle cfg true acc (.ok call.response) call.now
      call.ctype call.paramsJson).cache) c0

/-- The entries the cache is claimed to retain after a call sequence:
the `max_cache_size` most recent ones. -/
def retained (cfg : PerformanceConfig) (l : List CacheCall) : Cache :=
  (l.map callEntry).drop (l.length - cfg.max_cache_size)

theorem retained_keys (cfg : PerformanceConfig) (l : List CacheCall) :
    (retained cfg l).map Prod.fst =
      (l.map callKey).drop (l.length - cfg.max_cache_size) := by
  unfold retained
  rw [← List.map_drop, ← List.map_drop, List.map_map]
  rfl

theorem retained_length (cfg : PerformanceConfig) (l : List CacheCall) :
    (retained cfg l).length = min l.length cfg.max_cache_size := by
  unfold retained
  rw [List.length_drop, List.length_map]
  omega

/-- One dispatcher step on a cache retaining the most recent entries of
the already-processed calls: the new entry is appended and, above the
bound, exactly the oldest entry is evicted. -/
theorem dispatch_step (cfg : PerformanceConfig) (pre : List CacheCall)
    (call : CacheCall)
    (hen : cfg.enable_caching = true)
    (hca : is_cacheable call.ctype = true)
    (hsucc : truthy (dictGetD call.response "success" (.pyBool false)) = true)
    (hkey : callKey call ∉ pre.map callKey)
    (hts : ∀ c ∈ pre, c.now < call.now)
    (hpair : pre.Pairwise (fun a b => a.now < b.now))
    (hkeyspre : (pre.map callKey).Nodup) :
    (unityHandle cfg true (retained cfg pre) (.ok call.response) call.now
      call.ctype call.paramsJson).cache = retained cfg (pre ++ [call]) := by
  have hkeysub : List.Sublist ((retained cfg pre).map Prod.fst) (pre.map callKey) := by
    rw [retained_keys]
    exact List.drop_sublist _ _
  have hmemkey : ∀ p ∈ retained cfg pre, p.1 ≠ callKey call := by
    intro p hp hcontra
    exact hkey (hcontra ▸ hkeysub.subset (List.mem_map_of_mem Prod.fst hp))
  have hnone : cacheLookup (retained cfg pre)
      (get_cache_key call.ctype call.paramsJson) = none :=
    cacheLookup_eq_none _ _ hmemkey
  have hred : (unityHandle cfg true (retained cfg pre) (.ok call.response)
      call.now call.ctype call.paramsJson).cache =
      cacheEvict cfg.max_cache_size (retained cfg pre ++ [callEntry call]) := by
    simp only [unityHandle, cacheFresh_of_lookup_none _ _ _ _ _ hnone,
      cacheStore, hen, hca, hsucc, Bool.and_self, Bool.true_and, if_true,
      cacheInsertEvict, cacheSet_of_lookup_none _ _ _ hnone, Bool.not_true,
      Bool.false_eq_true, if_false, callEntry, callKey]
  rw [hred]
  rcases Nat.lt_or_ge pre.length cfg.max_cache_size with hlt | hge
  · have hpre0 : pre.length - cfg.max_cache_size = 0 := by omega
    have hr1 : retained cfg pre = pre.map callEntry := by
      unfold retained
      rw [hpre0, List.drop_zero]
    have hlen : (retained cfg pre ++ [callEntry call]).length ≤
        cfg.max_cache_size := by
      rw [hr1]
      simp only [List.length_append, List.length_map, List.length_singleton]
      omega
    rw [cacheEvict_of_le _ _ hlen, hr1]
    unfold retained
    have hz : (pre ++ [call]).length - cfg.max_cache_size = 0 := by
      simp only [List.length_append, List.length_singleton]
      omega
    rw [hz, List.drop_zero, List.map_append]
    rfl
  · have hrlen : (retained cfg pre).length = cfg.max_cache_size := by
      rw [retained_length]
      omega
    have hlen : (retained cfg pre ++ [callEntry call]).length =
        cfg.max_cache_size + 1 := by
      simp [hrlen]
    have hpe : (pre.map callEntry).Pairwise tsLe := by
      rw [List.pairwise_map]
      exact hpair.imp (fun h => le_of_lt h)
    have hretsub : List.Sublist (retained cfg pre) (pre.map callEntry) := by
      unfold retained
      exact List.drop_sublist _ _
    have hsort : (retained cfg pre ++ [callEntry call]).Pairwise tsLe := by
      rw [List.pairwise_append]
      refine ⟨hpe.sublist hretsub, List.pairwise_singleton _ _, ?_⟩
      intro a ha b hb
      rcases List.mem_singleton.mp hb with rfl
      rcases List.mem_map.mp (hretsub.subset ha) with ⟨c, hc, rfl⟩
      exact le_of_lt (hts c hc)
    have hknd : ((retained cfg pre ++ [callEntry call]).map Prod.fst).Nodup := by
      rw [List.map_append, retained_keys]
      rw [List.nodup_append]
      refine ⟨hkeyspre.sublist (List.drop_sublist _ _), List.nodup_singleton _, ?_⟩
      intro a ha hb
      have ha2 : a ∈ pre.map callKey := (List.drop_sublist _ _).subset ha
      have hb2 : a = callKey call := by
        simpa [callEntry] using hb
      exact hkey (hb2 ▸ ha2)
    rw [cacheEvict_of_sorted_succ _ _ hlen hsort hknd]
    have hr2 : retained cfg pre =
        (pre.map callEntry).drop (pre.length - cfg.max_cache_size) := rfl
    rw [hr2, tail_drop_append]
    unfold retained
    rw [List.map_append]
    have hidx : (pre ++ [call]).length - cfg.max_cache_size =
        (pre.length - cfg.max_cache_size) + 1 := by
      simp only [List.length_append, List.length_singleton]
      omega
    rw [hidx]
    rfl

/-- Dispatching a suffix of calls on the retained cache of the processed
prefix yields the retained cache of the whole list. -/
theorem dispatchAll_retained (cfg : PerformanceConfig) (suf : List CacheCall) :
    ∀ (pre : List CacheCall),
    cfg.enable_caching = true →
    (∀ c ∈ pre ++ suf, is_cacheable c.ctype = true) →
    (∀ c ∈ pre ++ suf,
      truthy (dictGetD c.response "success" (.pyBool false)) = true) →
    ((pre ++ suf).map callKey).Nodup →
    (pre ++ suf).Pairwise (fun a b => a.now < b.now) →
    dispatchAll cfg suf (retained cfg pre) = retained cfg (pre ++ suf) := by
  induction suf with
  | nil =>
    intro pre _ _ _ _ _
    simp [dispatchAll]
  | cons call rest ih =>
    intro pre hen hca hsucc hnd hpair
    have hmemcall : call ∈ pre ++ call :: rest := by simp
    have hndsplit := List.nodup_append.mp (by
      rw [List.map_append] at hnd
      exact hnd)
    have hpairsplit := List.pairwise_append.mp hpair
    have hkey : callKey call ∉ pre.map callKey := by
      intro hmem
      exact hndsplit.2.2 hmem (by simp)
    have hts : ∀ c ∈ pre, c.now < call.now := by
      intro c hc
      exact hpairsplit.2.2 c hc call (by simp)
    have hstep := dispatch_step cfg pre call hen (hca call hmemcall)
      (hsucc call hmemcall) hkey hts hpairsplit.1
      (by
        rw [List.map_append] at hnd
        exact List.Nodup.of_append_left hnd)
    have hfold : dispatchAll cfg (call :: rest) (retained cfg pre) =
        dispatchAll cfg rest ((unityHandle cfg true (retained cfg pre)
          (.ok call.response) call.now call.ctype call.paramsJson).cache) := rfl
    have hassoc : (pre ++ [call]) ++ rest = pre ++ call :: rest := by
      simp
    rw [hfold, hstep]
    have hrec := ih (pre ++ [call]) hen (by rw [hassoc]; exact hca)
      (by rw [hassoc]; exact hsucc) (by rw [hassoc]; exact hnd)
      (by rw [hassoc]; exact hpair)
    rw [hrec, hassoc]

/-- C6: with caching enabled, inserting a sequence of distinct cacheable
entries (each from a `success:true` Transport response, timestamps
strictly increasing) into an empty cache leaves exactly
`min n max_cache_size` entries, and the retained entries are the most
recently updated ones — eviction removed the oldest entries by
timestamp.  For `n = max_cache_size + k` this is exactly
`max_cache_size` entries. -/
theorem cache_bound_most_recent (cfg : PerformanceConfig)
    (calls : List CacheCall)
    (hen : cfg.enable_caching = true)
    (hca : ∀ c ∈ calls, is_cacheable c.ctype = true)
    (hsucc : ∀ c ∈ calls,
      truthy (dictGetD c.response "success" (.pyBool false)) = true)
    (hnd : (calls.map callKey).Nodup)
    (hpair : calls.Pairwise (fun a b => a.now < b.now)) :
    dispatchAll cfg calls [] =
      (calls.map callEntry).drop (calls.length - cfg.max_cache_size) ∧
    (dispatchAll cfg calls []).length = min calls.length cfg.max_cache_size := by
  have h0 : retained cfg [] = ([] : Cache) := by
    unfold retained
    simp
  have haux := dispatchAll_retained cfg calls [] hen (by simpa using hca)
    (by simpa using hsucc) (by simpa using hnd) (by simpa using hpair)
  rw [h0] at haux
  simp only [List.nil_append] at haux
  refine ⟨haux, ?_⟩
  rw [haux]
  have := retained_length cfg calls
  unfold retained at this
  exact this

/-- C6 witness: bound 2, three distinct cacheable insertions at times
1, 2, 3; the cache keeps the entries of times 2 and 3. -/
theorem cache_bound_most_recent_witness :
    dispatchAll ⟨true, 300, 2⟩
      [⟨"get_scene_info", "a", [("success", .pyBool true)], 1⟩,
       ⟨"get_object_info", "b", [("success", .pyBool true)], 2⟩,
       ⟨"get_system_info", "c", [("success", .pyBool true)], 3⟩] [] =
      (([⟨"get_scene_info", "a", [("success", .pyBool true)], 1⟩,
         ⟨"get_object_info", "b", [("success", .pyBool true)], 2⟩,
         ⟨"get_system_info", "c", [("success", .pyBool true)], 3⟩] :
          List CacheCall).map callEntry).drop
        (([⟨"get_scene_info", "a", [("success", .pyBool true)], 1⟩,
           ⟨"get_object_info", "b", [("success", .pyBool true)], 2⟩,
           ⟨"get_system_info", "c", [("success", .pyBool true)], 3⟩] :
            List CacheCall).length - (⟨true, 300, 2⟩ : PerformanceConfig).max_cache_size) ∧
    (dispatchAll ⟨true, 300, 2⟩
      [⟨"get_scene_info", "a", [("success", .pyBool true)], 1⟩,
       ⟨"get_object_info", "b", [("success", .pyBool true)], 2⟩,
       ⟨"get_system_info", "c", [("success", .pyBool true)], 3⟩] []).length =
      min ([⟨"get_scene_info", "a", [("success", .pyBool true)], 1⟩,
            ⟨"get_object_info", "b", [("success", .pyBool true)], 2⟩,
            ⟨"get_system_info", "c", [("success", .pyBool true)], 3⟩] :
             List CacheCall).length (⟨true, 300, 2⟩ : PerformanceConfig).max_cache_size :=
  cache_bound_most_recent ⟨true, 300, 2⟩
    [⟨"get_scene_info", "a", [("success", .pyBool true)], 1⟩,
     ⟨"get_object_info", "b", [("success", .pyBool true)], 2⟩,
     ⟨"get_system_info", "c", [("success", .pyBool true)], 3⟩]
    (by decide) (by decide) (by decide) (by decide) (by decide)

/-! ## Transport (connection.py) -/

/-- Connection state of `UnityConnection` as far as the reconnect logic
reads and writes it. -/
structure ConnState where
  reconnect_attempts : Nat
  max_reconnect_attempts : Nat
  reconnect_delay : ℚ
  connected : Bool
deriving Repr, DecidableEq

/-- `UnityConnection.connect`, parametrised by whether the socket connect
succeeds: success resets the attempt counter and marks the connection
live, failure increments the counter and clears it. -/
def connect (s : ConnState) (ok : Bool) : ConnState :=
  if ok then { s with reconnect_attempts := 0, connected := true }
  else { s with reconnect_attempts := s.reconnect_attempts + 1,
                connected := false }

/-- Observation of one `reconnect()` call: the returned bool, the state
afterwards, whether a socket connect was attempted, and the back-off
sleep that was performed. -/
structure ReconnectOut where
  ret : Bool
  state : ConnState
  connectTried : Bool
  sleep : Option ℚ
deriving Repr, DecidableEq

/-- `UnityConnection.reconnect`: refuse at the bound, otherwise
disconnect, sleep `reconnect_delay * (attempts + 1)`, connect. -/
def reconnect (s : ConnState) (ok : Bool) : ReconnectOut :=
  if s.max_reconnect_attempts ≤ s.reconnect_attempts then
    ⟨false, s, false, none⟩
  else
    let s2 := connect { s with connected := false } ok
    ⟨s2.connected, s2, true,
      some (s.reconnect_delay * (s.reconnect_attempts + 1))⟩

/-! ## Claim C8 -/

/-- Repeated failing connects accumulate attempts and keep the bound. -/
theorem connect_fail_iterate (s : ConnState) (n : Nat) :
    (Nat.iterate (fun t => connect t false) n s).reconnect_attempts =
      s.reconnect_attempts + n ∧
    (Nat.iterate (fun t => connect t false) n s).max_reconnect_attempts =
      s.max_reconnect_attempts := by
  induction n with
  | zero => simp
  | succ n ih =>
    rw [Function.iterate_succ_apply']
    have hcf : ∀ t : ConnState, connect t false =
        { t with reconnect_attempts := t.reconnect_attempts + 1,
                 connected := false } := by
      intro t
      simp [connect]
    rw [hcf]
    refine ⟨?_, ?_⟩
    · show (Nat.iterate (fun t => connect t false) n s).reconnect_attempts + 1 = _
      rw [ih.1]
      omega
    · show (Nat.iterate (fun t => connect t false) n s).max_reconnect_attempts = _
      exact ih.2

/-- C8: after `max_reconnect_attempts` consecutive failed connects from a
fresh counter, `reconnect()` returns false without attempting another
socket connect; below the bound it disconnects, sleeps
`reconnect_delay * (attempts + 1)` and returns the connect result, the
connect resetting the counter on success and incrementing it on
failure. -/
theorem reconnect_bound (s0 s : ConnState) (ok ok2 : Bool) (n : Nat)
    (h0 : s0.reconnect_attempts = 0)
    (hn : s0.max_reconnect_attempts ≤ n)
    (hlt : s.reconnect_attempts < s.max_reconnect_attempts) :
    reconnect (Nat.iterate (fun t => connect t false) n s0) ok =
      ⟨false, Nat.iterate (fun t => connect t false) n s0, false, none⟩ ∧
    reconnect s ok2 =
      ⟨ok2, connect { s with connected := false } ok2, true,
        some (s.reconnect_delay * (s.reconnect_attempts + 1))⟩ ∧
    (connect s true).reconnect_attempts = 0 ∧
    (connect s false).reconnect_attempts = s.reconnect_attempts + 1 := by
  have hiter := connect_fail_iterate s0 n
  refine ⟨?_, ?_, by simp [connect], by simp [connect]⟩
  · unfold reconnect
    rw [if_pos (by rw [hiter.1, hiter.2, h0]; omega)]
  · unfold reconnect
    rw [if_neg (by omega)]
    cases ok2 <;> simp [connect]

/-- C8 witness: five failed connects from a fresh counter, then a refused
reconnect; plus a below-bound reconnect from three attempts. -/
theorem reconnect_bound_witness :
    reconnect (Nat.iterate (fun t => connect t false) 5 ⟨0, 5, 2, true⟩) true =
      ⟨false, Nat.iterate (fun t => connect t false) 5 ⟨0, 5, 2, true⟩,
        false, none⟩ ∧
    reconnect (⟨3, 5, 2, true⟩ : ConnState) true =
      ⟨true, connect { (⟨3, 5, 2, true⟩ : ConnState) with connected := false }
        true, true,
        some ((⟨3, 5, 2, true⟩ : ConnState).reconnect_delay *
          ((⟨3, 5, 2, true⟩ : ConnState).reconnect_attempts + 1))⟩ ∧
    (connect (⟨3, 5, 2, true⟩ : ConnState) true).reconnect_attempts = 0 ∧
    (connect (⟨3, 5, 2, true⟩ : ConnState) false).reconnect_attempts =
      (⟨3, 5, 2, true⟩ : ConnState).reconnect_attempts + 1 :=
  reconnect_bound ⟨0, 5, 2, true⟩ ⟨3, 5, 2, true⟩ true true 5
    (by decide) (by decide) (by decide)

/-! ## Claim C2 -/

/-- Outcome of one frame exchange inside `send_command` (what the socket
layer does when the send/receive pair is tried); the flag of `sockErr`
records whether the error message carries the 10053/10054 reset or abort
code that the source tests with a substring check. -/
inductive SendOutcome where
  | ok : PyDict → SendOutcome
  | sockErr : Bool → String → SendOutcome
  | otherErr : String → SendOutcome

/-- Result of `send_command`: a decoded response or ConnectionError. -/
inductive SendResult where
  | success : PyDict → SendResult
  | connErr : String → SendResult

/-- Pop the next socket-connect outcome from the environment; an
exhausted environment behaves as a failing connect. -/
def takeConn : List Bool → Bool × List Bool
  | [] => (false, [])
  | c :: cs => (c, cs)

/-- `UnityConnection.send_command`.  `outs` supplies the outcome of each
successive frame exchange, `cs` the outcome of each successive socket
connect.  The heartbeat is omitted: its failures are swallowed
(connection.py lines 271-282) and it changes nothing the claims read.
Returns the result, the final state, the number of frame exchanges tried
and the number of `reconnect()` invocations. -/
def send_command : List SendOutcome → List Bool → ConnState →
    SendResult × ConnState × Nat × Nat
  | [], _, s => (.connErr "environment exhausted", s, 0, 0)
  | o :: rest, cs, s0 =>
    let ens :=
      if s0.connected then (s0, cs, true)
      else
        let s1 := connect s0 (takeConn cs).1
        (s1, (takeConn cs).2, s1.connected)
    if !ens.2.2 then (.connErr "Not connected to Unity", ens.1, 0, 0)
    else
      match o with
      | .ok r => (.success r, ens.1, 1, 0)
      | .otherErr msg =>
        (.connErr ("Error sending command: " ++ msg), ens.1, 1, 0)
      | .sockErr isReset msg =>
        if isReset then
          let rc := reconnect ens.1 (takeConn ens.2.1).1
          if rc.ret then
            let cont := send_command rest (takeConn ens.2.1).2 rc.state
            (cont.1, cont.2.1, cont.2.2.1 + 1, cont.2.2.2 + 1)
          else
            (.connErr ("Socket error when sending command: " ++ msg),
              rc.state, 1, 1)
        else
          (.connErr ("Socket error when sending command: " ++ msg),
            ens.1, 1, 0)

/-- C2 counterexample: two consecutive reset errors, each followed by a
successful reconnect, then a non-reset failure.  Before ConnectionError
surfaces the command performs three frame exchanges and two reconnect()
invocations — not exactly one reconnect with a single retry. -/
theorem send_command_retry_counterexample :
    send_command
      [.sockErr true "10054", .sockErr true "10054", .otherErr "boom"]
      [true, true] ⟨0, 5, 2, true⟩ =
      (.connErr "Error sending command: boom", ⟨0, 5, 2, true⟩, 3, 2) ∧
    ¬ (send_command
      [.sockErr true "10054", .sockErr true "10054", .otherErr "boom"]
      [true, true] ⟨0, 5, 2, true⟩).2.2.2 = 1 := by
  refine ⟨rfl, by decide⟩

/-- C2 amended: a reset/abort socket error triggers one `reconnect()`
and, when the reconnect succeeds, a full recursive retry of the same
command — so several reconnect-plus-retry rounds may happen; when the
reconnect refuses or fails, ConnectionError surfaces; every other
transport error surfaces ConnectionError immediately with no reconnect
and no retry. -/
theorem send_command_retry_behaviour (s : ConnState)
    (rest : List SendOutcome) (cs cs2 : List Bool) (c : Bool)
    (r : PyDict) (msg : String)
    (hconn : s.connected = true)
    (hcs : takeConn cs = (c, cs2)) :
    send_command (.ok r :: rest) cs s = (.success r, s, 1, 0) ∧
    send_command (.otherErr msg :: rest) cs s =
      (.connErr ("Error sending command: " ++ msg), s, 1, 0) ∧
    send_command (.sockErr false msg :: rest) cs s =
      (.connErr ("Socket error when sending command: " ++ msg), s, 1, 0) ∧
    ((reconnect s c).ret = true →
      send_command (.sockErr true msg :: rest) cs s =
        ((send_command rest cs2 (reconnect s c).state).1,
         (send_command rest cs2 (reconnect s c).state).2.1,
         (send_command rest cs2 (reconnect s c).state).2.2.1 + 1,
         (send_command rest cs2 (reconnect s c).state).2.2.2 + 1)) ∧
    ((reconnect s c).ret = false →
      send_command (.sockErr true msg :: rest) cs s =
        (.connErr ("Socket error when sending command: " ++ msg),
          (reconnect s c).state, 1, 1)) := by
  refine ⟨?_, ?_, ?_, ?_, ?_⟩
  · simp [send_command, hconn]
  · simp [send_command, hconn]
  · simp [send_command, hconn]
  · intro hret
    simp [send_command, hconn, hcs, hret]
  · intro hret
    simp [send_command, hconn, hcs, hret]

/-- C2 amended witness: a reset error with a succeeding reconnect retries
the remaining command, which succeeds. -/
theorem send_command_retry_behaviour_witness :
    send_command (.ok [("a", .pyNum 1)] :: [.ok []]) [true]
      (⟨0, 5, 2, true⟩ : ConnState) =
      (.success [("a", PyVal.pyNum 1)], ⟨0, 5, 2, true⟩, 1, 0) ∧
    send_command (.otherErr "boom" :: [.ok []]) [true]
      (⟨0, 5, 2, true⟩ : ConnState) =
      (.connErr ("Error sending command: " ++ "boom"),
        ⟨0, 5, 2, true⟩, 1, 0) ∧
    send_command (.sockErr false "boom" :: [.ok []]) [true]
      (⟨0, 5, 2, true⟩ : ConnState) =
      (.connErr ("Socket error when sending command: " ++ "boom"),
        ⟨0, 5, 2, true⟩, 1, 0) ∧
    ((reconnect (⟨0, 5, 2, true⟩ : ConnState) true).ret = true →
      send_command (.sockErr true "boom" :: [.ok []]) [true]
        (⟨0, 5, 2, true⟩ : ConnState) =
        ((send_command [.ok []] []
            (reconnect (⟨0, 5, 2, true⟩ : ConnState) true).state).1,
         (send_command [.ok []] []
            (reconnect (⟨0, 5, 2, true⟩ : ConnState) true).state).2.1,
         (send_command [.ok []] []
            (reconnect (⟨0, 5, 2, true⟩ : ConnState) true).state).2.2.1 + 1,
         (send_command [.ok []] []
            (reconnect (⟨0, 5, 2, true⟩ : ConnState) true).state).2.2.2 + 1)) ∧
    ((reconnect (⟨0, 5, 2, true⟩ : ConnState) true).ret = false →
      send_command (.sockErr true "boom" :: [.ok []]) [true]
        (⟨0, 5, 2, true⟩ : ConnState) =
        (.connErr ("Socket error when sending command: " ++ "boom"),
          (reconnect (⟨0, 5, 2, true⟩ : ConnState) true).state, 1, 1)) :=
  send_command_retry_behaviour ⟨0, 5, 2, true⟩ [.ok []] [true] [] true
    [("a", .pyNum 1)] "boom" (by decide) (by decide)

/-! ## Claim C9 — wire framing -/

/-- `length.to_bytes(4, "little")`: the four little-endian base-256
digits. -/
def toLE4 (n : Nat) : List Nat :=
  [n % 256, n / 256 % 256, n / 256 ^ 2 % 256, n / 256 ^ 3 % 256]

/-- `int.from_bytes(b, "little")`. -/
def fromLEBytes : List Nat → Nat
  | [] => 0
  | b :: rest => b + 256 * fromLEBytes rest

/-- `UnityConnection._send_data`: a 4-byte little-endian length prefix,
then the payload bytes of the UTF-8 encoded JSON document. -/
def send_data (payload : List Nat) : List Nat :=
  toLE4 payload.length ++ payload

/-- `UnityConnection._receive_data`: accumulate `sock.recv` chunks until
`size` bytes arrived; an empty chunk before that raises ConnectionError
(modelled as `none`).  The environment schedule chooses every chunk size;
it is clamped to at least one byte and to at most both the request and
the bytes available, matching what a live TCP `recv` may return.  Fuel
bounds the recursion; `size` is always enough because each chunk is
nonempty.  Returns the data, the remaining stream and the remaining
schedule. -/
def receive_data (fuel : Nat) (sched : List Nat) (stream : List Nat)
    (size : Nat) : Option (List Nat × List Nat × List Nat) :=
  match size, fuel with
  | 0, _ => some ([], stream, sched)
  | _ + 1, 0 => none
  | need + 1, fuel + 1 =>
    match stream with
    | [] => none
    | _ :: _ =>
      let c := min (min (need + 1) stream.length)
        (max 1 (sched.headD (need + 1)))
      match receive_data fuel sched.tail (stream.drop c) (need + 1 - c) with
      | some (restData, st2, sc2) => some (stream.take c ++ restData, st2, sc2)
      | none => none

/-- `UnityConnection._receive_full_response`: read the 4-byte length
prefix, decode it little-endian, then read exactly that many payload
bytes. -/
def receive_full_response (sched : List Nat) (stream : List Nat) :
    Option (List Nat × List Nat) :=
  match receive_data 4 sched stream 4 with
  | none => none
  | some (lenBytes, st1, sc1) =>
    match receive_data (fromLEBytes lenBytes) sc1 st1
        (fromLEBytes lenBytes) with
    | none => none
    | some (data, st2, _) => some (data, st2)

/-- The accumulating receive loop returns exactly the first `size` bytes
of the stream and consumes them, for every chunk schedule, whenever the
stream holds enough bytes and the fuel covers the request. -/
theorem receive_data_spec (fuel : Nat) :
    ∀ (sched stream : List Nat) (size : Nat), size ≤ fuel →
    size ≤ stream.length →
    ∃ sc2, receive_data fuel sched stream size =
      some (stream.take size, stream.drop size, sc2) := by
  induction fuel with
  | zero =>
    intro sched stream size hf hs
    interval_cases size
    exact ⟨sched, rfl⟩
  | succ fuel ih =>
    intro sched stream size hf hs
    match size with
    | 0 => exact ⟨sched, rfl⟩
    | need + 1 =>
      match stream with
      | [] => simp at hs
      | b :: st =>
        have hc1 : 1 ≤ min (min (need + 1) (b :: st).length)
            (max 1 (sched.headD (need + 1))) := by
          simp only [List.length_cons]
          omega
        have hc2 : min (min (need + 1) (b :: st).length)
            (max 1 (sched.headD (need + 1))) ≤ need + 1 := by
          omega
        have hc3 : min (min (need + 1) (b :: st).length)
            (max 1 (sched.headD (need + 1))) ≤ (b :: st).length := by
          omega
        set c := min (min (need + 1) (b :: st).length)
          (max 1 (sched.headD (need + 1))) with hcdef
        have hrec := ih sched.tail ((b :: st).drop c) (need + 1 - c)
          (by omega) (by rw [List.length_drop]; omega)
        obtain ⟨sc2, hrec⟩ := hrec
        refine ⟨sc2, ?_⟩
        show (match receive_data fuel sched.tail ((b :: st).drop c)
            (need + 1 - c) with
          | some (restData, st2, sc2) =>
            some ((b :: st).take c ++ restData, st2, sc2)
          | none => none) =
          some ((b :: st).take (need + 1), (b :: st).drop (need + 1), sc2)
        rw [hrec]
        have htake : (b :: st).take c ++ ((b :: st).drop c).take (need + 1 - c)
            = (b :: st).take (need + 1) := by
          rw [← List.take_add]
          congr 1
          omega
        have hdrop : ((b :: st).drop c).drop (need + 1 - c) =
            (b :: st).drop (need + 1) := by
          rw [List.drop_drop]
          congr 1
          omega
        show some ((b :: st).take c ++ ((b :: st).drop c).take (need + 1 - c),
            ((b :: st).drop c).drop (need + 1 - c), sc2) = _
        rw [htake, hdrop]

/-- Decoding the 4 little-endian digits of a length below 2 to the 32
recovers it. -/
theorem fromLEBytes_toLE4 (n : Nat) (h : n < 2 ^ 32) :
    fromLEBytes (toLE4 n) = n := by
  show n % 256 + 256 * (n / 256 % 256 + 256 * (n / 256 ^ 2 % 256 +
    256 * (n / 256 ^ 3 % 256 + 256 * 0))) = n
  have h32 : n < 4294967296 := by
    calc n < 2 ^ 32 := h
    _ = 4294967296 := by norm_num
  have e2 : (256 : Nat) ^ 2 = 65536 := by norm_num
  have e3 : (256 : Nat) ^ 3 = 16777216 := by norm_num
  rw [e2, e3]
  omega

/-- C9: writing a document of byte length below 2 to the 32 (including
length 0) with the 4-byte little-endian framing and reading it back from
the same stream with the accumulating receive loop reproduces the exact
original bytes and leaves the rest of the stream untouched, under every
chunk schedule. -/
theorem framing_round_trip (payload rest sched : List Nat)
    (hlen : payload.length < 2 ^ 32) :
    receive_full_response sched (send_data payload ++ rest) =
      some (payload, rest) := by
  have hassoc : send_data payload ++ rest =
      toLE4 payload.length ++ (payload ++ rest) := by
    unfold send_data
    rw [List.append_assoc]
  have hlen4 : (toLE4 payload.length).length = 4 := rfl
  have hstream : 4 ≤ (toLE4 payload.length ++ (payload ++ rest)).length := by
    rw [List.length_append, hlen4]
    omega
  obtain ⟨sc1, h1⟩ := receive_data_spec 4 sched
    (toLE4 payload.length ++ (payload ++ rest)) 4 (le_refl 4) hstream
  have htake4 : (toLE4 payload.length ++ (payload ++ rest)).take 4 =
      toLE4 payload.length := List.take_left' hlen4
  have hdrop4 : (toLE4 payload.length ++ (payload ++ rest)).drop 4 =
      payload ++ rest := List.drop_left' hlen4
  have hdec : fromLEBytes (toLE4 payload.length) = payload.length :=
    fromLEBytes_toLE4 payload.length hlen
  obtain ⟨sc2, h2⟩ := receive_data_spec payload.length sc1 (payload ++ rest)
    payload.length (le_refl _)
    (by rw [List.length_append]; omega)
  have htakeP : (payload ++ rest).take payload.length = payload :=
    List.take_left' rfl
  have hdropP : (payload ++ rest).drop payload.length = rest :=
    List.drop_left' rfl
  rw [hassoc]
  unfold receive_full_response
  rw [htake4, hdrop4] at h1
  rw [htakeP, hdropP] at h2
  rw [h1]
  show (match receive_data (fromLEBytes (toLE4 payload.length)) sc1
      (payload ++ rest) (fromLEBytes (toLE4 payload.length)) with
    | none => none
    | some (data, st2, _) => some (data, st2)) = some (payload, rest)
  rw [hdec, h2]

/-- C9 witness: a two-byte document framed and decoded across a ragged
chunk schedule. -/
theorem framing_round_trip_witness :
    receive_full_response [1, 3, 1, 5] (send_data [7, 13] ++ [9]) =
      some ([7, 13], [9]) :=
  framing_round_trip [7, 13] [9] [1, 3, 1, 5] (by decide)

/-! ## Batch executor (batch_tools.py _batch_execute, identical in
batch_operations.py batch_execute) -/

/-- One element of the commands list, as the executor distinguishes
them: not a dict, a dict missing the `type` key, or a command carrying a
type and parameters. -/
inductive BatchItem where
  | notDict
  | noType
  | cmd : String → PyVal → BatchItem

/-- A registered MCP tool: name, subsystem (`core` when the attribute is
absent) and the handler function, which returns a value or raises with a
message. -/
structure Tool where
  name : String
  subsystem : String
  fn : PyVal → Except String PyVal

/-- The subsystem split `command_type.split(".", 1)` with lower-casing;
a type without a dot belongs to `core`. -/
def splitSubsystem (t : String) : String × String :=
  match t.splitOn "." with
  | [] => ("core", t)
  | [_] => ("core", t)
  | spart :: restParts => (spart.toLower, String.intercalate "." restParts)

/-- The linear handler scan over `mcp.tools`. -/
def findHandler (tools : List Tool) (sub act : String) :
    Option (PyVal → Except String PyVal) :=
  match tools with
  | [] => none
  | tool :: restTools =>
    if tool.name = act ∧ tool.subsystem = sub then some tool.fn
    else findHandler restTools sub act

/-- One entry of the errors array (the stack-trace field is omitted; no
claim reads it). -/
structure BatchError where
  error : String
  command_index : Nat
  command_type : Option String
deriving Repr, DecidableEq

/-- The result decoration: set commandType and executionTime on a dict
result, wrap a non-dict result as `result: value` first.  Wall-clock
durations are modelled as 0. -/
def decorateResult (ctype : String) (r : PyVal) : PyDict :=
  match r with
  | .pyObj l =>
    dictSet (dictSet l "commandType" (.pyStr ctype)) "executionTime" (.pyNum 0)
  | v =>
    [("result", v), ("commandType", .pyStr ctype), ("executionTime", .pyNum 0)]

/-- The per-item body of the loop in `_batch_execute`: validation,
handler lookup, execution, decoration — producing exactly one result or
one indexed error. -/
def execItem (tools : List Tool) (i : Nat) :
    BatchItem → Except BatchError PyDict
  | .notDict =>
    .error ⟨"Command at index " ++ toString i ++ " is not a valid object",
      i, none⟩
  | .noType =>
    .error ⟨"Command at index " ++ toString i ++
      " is missing required type property", i, none⟩
  | .cmd ctype params =>
    match findHandler tools (splitSubsystem ctype).1 (splitSubsystem ctype).2 with
    | none => .error ⟨"Unknown command type: " ++ ctype, i, none⟩
    | some fn =>
      match fn params with
      | .ok r => .ok (decorateResult ctype r)
      | .error msg =>
        .error ⟨"Error executing command: " ++ msg, i, some ctype⟩

/-- The loop over the enumerated commands, accumulating the results and
errors arrays in order. -/
def batchLoop (tools : List Tool) : Nat → List BatchItem →
    List PyDict × List BatchError
  | _, [] => ([], [])
  | i, item :: restItems =>
    match execItem tools i item with
    | .ok r =>
      ((batchLoop tools (i + 1) restItems).1.cons r,
       (batchLoop tools (i + 1) restItems).2)
    | .error e =>
      ((batchLoop tools (i + 1) restItems).1,
       (batchLoop tools (i + 1) restItems).2.cons e)

/-- The aggregate dict `_batch_execute` returns for a processed batch
(the wall-clock executionTime field is omitted). -/
structure BatchOutcome where
  results : List PyDict
  errors : List BatchError
  commandCount : Nat
  successCount : Nat
  errorCount : Nat
  success : Bool

/-- The return value of `_batch_execute`: the falsy or non-list guard
rejects an empty commands value with an error object that carries no
counts at all; otherwise the processed aggregate. -/
inductive BatchResult where
  | invalid
  | outcome : BatchOutcome → BatchResult

/-- `_batch_execute`. -/
def batch_execute (tools : List Tool) (commands : List BatchItem) :
    BatchResult :=
  if commands.isEmpty then .invalid
  else
    .outcome ⟨(batchLoop tools 0 commands).1, (batchLoop tools 0 commands).2,
      commands.length, (batchLoop tools 0 commands).1.length,
      (batchLoop tools 0 commands).2.length,
      (batchLoop tools 0 commands).2.length == 0⟩

/-! ## Claim C3 -/

/-- Each processed item lands in exactly one of the two arrays. -/
theorem batchLoop_length (tools : List Tool) (items : List BatchItem) :
    ∀ i, (batchLoop tools i items).1.length +
      (batchLoop tools i items).2.length = items.length := by
  induction items with
  | nil => intro i; rfl
  | cons item restItems ih =>
    intro i
    unfold batchLoop
    cases execItem tools i item with
    | ok r =>
      simp only [List.cons, List.length_cons, List.length]
      have := ih (i + 1)
      omega
    | error e =>
      simp only [List.cons, List.length_cons, List.length]
      have := ih (i + 1)
      omega

/-- The commandCount field of a batch return value, when one exists. -/
def batchCommandCount : BatchResult → Option Nat
  | .invalid => none
  | .outcome o => some o.commandCount

/-- C3 counterexample: the batch of length 0 is rejected by the falsy
guard with the invalid-parameter error object, which carries no
commandCount at all — so no `commandCount == 0` is returned. -/
theorem batch_execute_empty_counterexample :
    batch_execute [] [] = BatchResult.invalid ∧
    batchCommandCount (batch_execute [] []) = none :=
  ⟨rfl, rfl⟩

/-- C3 amended: for every non-empty batch of N commands the executor
returns an aggregate with `commandCount = N`, `successCount` and
`errorCount` the lengths of the results and errors arrays, summing to N
(each item contributes exactly one entry to one of the two, even when
every item fails), and `success` true exactly when `errorCount = 0`. -/
theorem batch_execute_counts (tools : List Tool) (commands : List BatchItem)
    (hne : commands ≠ []) :
    batch_execute tools commands = BatchResult.outcome
      ⟨(batchLoop tools 0 commands).1, (batchLoop tools 0 commands).2,
       commands.length, (batchLoop tools 0 commands).1.length,
       (batchLoop tools 0 commands).2.length,
       (batchLoop tools 0 commands).2.length == 0⟩ ∧
    (batchLoop tools 0 commands).1.length +
      (batchLoop tools 0 commands).2.length = commands.length := by
  refine ⟨?_, batchLoop_length tools commands 0⟩
  unfold batch_execute
  rw [if_neg (by simp [List.isEmpty_iff, hne])]

/-- C3 amended witness: a single structurally invalid command yields one
error, zero results, commandCount 1 and success false. -/
theorem batch_execute_counts_witness :
    batch_execute [] [BatchItem.notDict] = BatchResult.outcome
      ⟨(batchLoop [] 0 [BatchItem.notDict]).1,
       (batchLoop [] 0 [BatchItem.notDict]).2,
       ([BatchItem.notDict] : List BatchItem).length,
       (batchLoop [] 0 [BatchItem.notDict]).1.length,
       (batchLoop [] 0 [BatchItem.notDict]).2.length,
       (batchLoop [] 0 [BatchItem.notDict]).2.length == 0⟩ ∧
    (batchLoop [] 0 [BatchItem.notDict]).1.length +
      (batchLoop [] 0 [BatchItem.notDict]).2.length =
      ([BatchItem.notDict] : List BatchItem).length :=
  batch_execute_counts [] [BatchItem.notDict] (List.cons_ne_nil _ _)

/-! ## Async operation manager (batch_tools.py AsyncOperationManager)

The worker thread and `cancel_operation` run concurrently.  The model
makes every Python statement of the worker an atomic action and lets one
`cancel_operation` call fire at an arbitrary action boundary, selected
by a countdown; a cancel still scheduled when the worker finishes fires
afterwards. -/

inductive OpStatus where
  | pending
  | running
  | completed
  | failed
  | cancelled
deriving Repr, DecidableEq

/-- The fields of one operations-table record the claims read (id,
command type and parameters omitted; progress is counted in tenths, so
1.0 is 10). -/
structure OpState where
  status : OpStatus
  start_time : Option Nat
  completion_time : Option Nat
  result : Option PyVal
  error : Option String
  progress : Nat
deriving Repr

/-- The record `start_operation` stores before launching the worker. -/
def initOp : OpState :=
  ⟨.pending, none, none, none, none, 0⟩

/-- Simulation state: the record, the countdown of boundaries until the
scheduled cancel fires (none when no cancel is pending any more), and
what `cancel_operation` returned once it ran. -/
structure Sim where
  op : OpState
  fuse : Option Nat
  cancelRet : Option Bool

/-- `AsyncOperationManager.cancel_operation`: while the status is pending
or running, set status = cancelled and completion_time and return true;
otherwise return false and touch nothing. -/
def cancel_operation (tC : Nat) (s : Sim) : Sim :=
  if s.op.status = .pending ∨ s.op.status = .running then
    { s with
      op := { s.op with status := .cancelled, completion_time := some tC },
      cancelRet := some true }
  else { s with cancelRet := some false }

/-- An action boundary: the scheduled cancel fires when its countdown
reaches zero, otherwise the countdown shrinks. -/
def bnd (tC : Nat) (s : Sim) : Sim :=
  match s.fuse with
  | some 0 => cancel_operation tC { s with fuse := none }
  | some (n + 1) => { s with fuse := some n }
  | none => s

/-- One atomic statement of the worker, preceded by an action boundary. -/
def act (tC : Nat) (f : OpState → OpState) (s : Sim) : Sim :=
  { bnd tC s with op := f (bnd tC s).op }

/-- The progress loop `for i in range(1, 10)`: observe the status (exit
without writing anything further when cancelled), then sleep and write
progress = i.  The flag records the early exit. -/
def progressLoop (tC : Nat) : List Nat → Sim → Sim × Bool
  | [], s => (s, false)
  | i :: restIters, s =>
    if (bnd tC s).op.status = .cancelled then (bnd tC s, true)
    else progressLoop tC restIters
      (act tC (fun op => { op with progress := i }) (bnd tC s))

/-- The completion writes (batch_tools.py lines 641-644). -/
def completedSeq (tW : Nat) (r : PyVal) (s : Sim) : Sim :=
  act tW (fun op => { op with progress := 10 })
    (act tW (fun op => { op with result := some r })
      (act tW (fun op => { op with completion_time := some tW })
        (act tW (fun op => { op with status := OpStatus.completed }) s)))

/-- The failure writes of the except clause (lines 648-651). -/
def failedSeq (tW : Nat) (msg : String) (s : Sim) : Sim :=
  act tW (fun op => { op with progress := 10 })
    (act tW (fun op => { op with error := some msg })
      (act tW (fun op => { op with completion_time := some tW })
        (act tW (fun op => { op with status := OpStatus.failed }) s)))

/-- A cancel still scheduled when the worker finished fires afterwards. -/
def flushCancel (tC : Nat) (s : Sim) : Sim :=
  match s.fuse with
  | some _ => cancel_operation tC { s with fuse := none }
  | none => s

/-- The two startup statements of `_execute_async_operation`: the
unconditional status = running write and the start_time write. -/
def workerStart (tW tC : Nat) (s : Sim) : Sim :=
  act tC (fun op => { op with start_time := some tW })
    (act tC (fun op => { op with status := OpStatus.running }) s)

/-- The rest of `_execute_async_operation` after startup: handler
resolution (failure raises the unknown-command ValueError into the
except clause), the progress loop with its cancellation checks, the
final check, the handler call, and the terminal writes.  `h` is the
handler lookup outcome together with the behaviour of the handler when
called. -/
def workerBody (h : Option (Except String PyVal)) (tW tC : Nat)
    (s2 : Sim) : Sim :=
  match h with
  | none => flushCancel tC (failedSeq tW "Unknown command type" s2)
  | some hres =>
    if (progressLoop tC [1, 2, 3, 4, 5, 6, 7, 8, 9] s2).2 then
      flushCancel tC (progressLoop tC [1, 2, 3, 4, 5, 6, 7, 8, 9] s2).1
    else
      if (bnd tC (progressLoop tC [1, 2, 3, 4, 5, 6, 7, 8, 9] s2).1).op.status
          = .cancelled then
        flushCancel tC (bnd tC (progressLoop tC [1, 2, 3, 4, 5, 6, 7, 8, 9] s2).1)
      else
        match hres with
        | .ok r => flushCancel tC (completedSeq tW r
            (bnd tC (progressLoop tC [1, 2, 3, 4, 5, 6, 7, 8, 9] s2).1))
        | .error msg => flushCancel tC (failedSeq tW msg
            (bnd tC (progressLoop tC [1, 2, 3, 4, 5, 6, 7, 8, 9] s2).1))

/-- A full run of one operation: the pending record stored by
`start_operation`, then the worker, with one cancel scheduled at action
boundary `cancelAt` (none: no cancel call at all). -/
def runOperation (h : Option (Except String PyVal)) (tW tC : Nat)
    (cancelAt : Option Nat) : Sim :=
  workerBody h tW tC (workerStart tW tC ⟨initOp, cancelAt, none⟩)

/-! ## Claim C4 -/

/-- C4: scheduling the cancel before the first worker statement
(`cancel_operation` sees the pending record, marks it cancelled and
returns true) still ends with the worker overwriting the terminal status
with running and finishing the operation as completed with progress 1.0
— a transition out of a terminal state, and a worker completing an
operation whose cancel returned true. -/
theorem cancel_then_completed_bug :
    (runOperation (some (.ok (.pyBool true))) 5 3 (some 0)).cancelRet =
      some true ∧
    (runOperation (some (.ok (.pyBool true))) 5 3 (some 0)).op.status =
      OpStatus.completed ∧
    (runOperation (some (.ok (.pyBool true))) 5 3 (some 0)).op.progress =
      10 :=
  ⟨rfl, rfl, rfl⟩

/-! ## Claim C5 -/

/-- C5 counterexample: a cancellation landing after progress 0.1 was
recorded (boundary 4, between the first progress write and the next
check) leaves the operation terminal in status cancelled with its
completion time set but progress 0.1 — progress had been recorded, yet
the terminal progress is not 1.0, which the claim allows only when no
progress was recorded. -/
theorem cancelled_progress_counterexample :
    (runOperation (some (.ok (.pyBool true))) 5 3 (some 4)).op.status =
      OpStatus.cancelled ∧
    (runOperation (some (.ok (.pyBool true))) 5 3 (some 4)).op.progress = 1 ∧
    (runOperation (some (.ok (.pyBool true))) 5 3 (some 4)).op.completion_time
      = some 3 ∧
    ¬ (runOperation (some (.ok (.pyBool true))) 5 3 (some 4)).op.progress
      = 10 :=
  ⟨rfl, rfl, rfl, by decide⟩

/-- Invariant: a cancelled status always comes with a set completion
time, because `cancel_operation` writes both together. -/
def cancelInv (op : OpState) : Prop :=
  op.status = .cancelled → op.completion_time.isSome = true

theorem cancel_operation_op_of_terminal (tC : Nat) (s : Sim)
    (h1 : s.op.status ≠ .pending) (h2 : s.op.status ≠ .running) :
    (cancel_operation tC s).op = s.op := by
  unfold cancel_operation
  rw [if_neg (by tauto)]

theorem bnd_op_of_terminal (tC : Nat) (s : Sim)
    (h1 : s.op.status ≠ .pending) (h2 : s.op.status ≠ .running) :
    (bnd tC s).op = s.op := by
  obtain ⟨op, fuse, cret⟩ := s
  cases fuse with
  | none => rfl
  | some n =>
    cases n with
    | zero => exact cancel_operation_op_of_terminal tC ⟨op, none, cret⟩ h1 h2
    | succ m => rfl

theorem flushCancel_op_of_terminal (tC : Nat) (s : Sim)
    (h1 : s.op.status ≠ .pending) (h2 : s.op.status ≠ .running) :
    (flushCancel tC s).op = s.op := by
  obtain ⟨op, fuse, cret⟩ := s
  cases fuse with
  | none => rfl
  | some n => exact cancel_operation_op_of_terminal tC ⟨op, none, cret⟩ h1 h2

theorem cancel_operation_inv (tC : Nat) (s : Sim) (h : cancelInv s.op) :
    cancelInv (cancel_operation tC s).op := by
  unfold cancel_operation
  by_cases hc : s.op.status = .pending ∨ s.op.status = .running
  · rw [if_pos hc]
    intro _
    rfl
  · rw [if_neg hc]
    exact h

theorem bnd_inv (tC : Nat) (s : Sim) (h : cancelInv s.op) :
    cancelInv (bnd tC s).op := by
  obtain ⟨op, fuse, cret⟩ := s
  cases fuse with
  | none => exact h
  | some n =>
    cases n with
    | zero => exact cancel_operation_inv tC ⟨op, none, cret⟩ h
    | succ m => exact h

/-- After the four completion writes the record is completed with its
completion time set and progress 1.0, whatever the cancel schedule does
at the interleaved boundaries: a cancel firing inside the sequence sees
a terminal status and backs off. -/
theorem completedSeq_spec (tW : Nat) (r : PyVal) (s : Sim) :
    (completedSeq tW r s).op.status = OpStatus.completed ∧
    (completedSeq tW r s).op.completion_time = some tW ∧
    (completedSeq tW r s).op.progress = 10 := by
  set s1 := act tW (fun op => { op with status := OpStatus.completed }) s
  set s2 := act tW (fun op => { op with completion_time := some tW }) s1
  set s3 := act tW (fun op => { op with result := some r }) s2
  have e1 : s1.op.status = OpStatus.completed := rfl
  have e2 : s2.op = { s1.op with completion_time := some tW } := by
    show { (bnd tW s1).op with completion_time := some tW } = _
    rw [bnd_op_of_terminal tW s1 (by rw [e1]; decide) (by rw [e1]; decide)]
  have e2s : s2.op.status = OpStatus.completed := by
    rw [e2]
    exact e1
  have e3 : s3.op = { s2.op with result := some r } := by
    show { (bnd tW s2).op with result := some r } = _
    rw [bnd_op_of_terminal tW s2 (by rw [e2s]; decide) (by rw [e2s]; decide)]
  have e3s : s3.op.status = OpStatus.completed := by
    rw [e3]
    exact e2s
  have e3c : s3.op.completion_time = some tW := by
    rw [e3]
    show s2.op.completion_time = some tW
    rw [e2]
  have hcs : completedSeq tW r s =
      act tW (fun op => { op with progress := 10 }) s3 := rfl
  have e4 : (act tW (fun op => { op with progress := 10 }) s3).op =
      { s3.op with progress := 10 } := by
    show { (bnd tW s3).op with progress := 10 } = _
    rw [bnd_op_of_terminal tW s3 (by rw [e3s]; decide) (by rw [e3s]; decide)]
  rw [hcs, e4]
  exact ⟨e3s, e3c, rfl⟩

/-- After the four failure writes the record is failed with its
completion time set and progress 1.0, under every cancel schedule. -/
theorem failedSeq_spec (tW : Nat) (msg : String) (s : Sim) :
    (failedSeq tW msg s).op.status = OpStatus.failed ∧
    (failedSeq tW msg s).op.completion_time = some tW ∧
    (failedSeq tW msg s).op.progress = 10 := by
  set s1 := act tW (fun op => { op with status := OpStatus.failed }) s
  set s2 := act tW (fun op => { op with completion_time := some tW }) s1
  set s3 := act tW (fun op => { op with error := some msg }) s2
  have e1 : s1.op.status = OpStatus.failed := rfl
  have e2 : s2.op = { s1.op with completion_time := some tW } := by
    show { (bnd tW s1).op with completion_time := some tW } = _
    rw [bnd_op_of_terminal tW s1 (by rw [e1]; decide) (by rw [e1]; decide)]
  have e2s : s2.op.status = OpStatus.failed := by
    rw [e2]
    exact e1
  have e3 : s3.op = { s2.op with error := some msg } := by
    show { (bnd tW s2).op with error := some msg } = _
    rw [bnd_op_of_terminal tW s2 (by rw [e2s]; decide) (by rw [e2s]; decide)]
  have e3s : s3.op.status = OpStatus.failed := by
    rw [e3]
    exact e2s
  have e3c : s3.op.completion_time = some tW := by
    rw [e3]
    show s2.op.completion_time = some tW
    rw [e2]
  have hcs : failedSeq tW msg s =
      act tW (fun op => { op with progress := 10 }) s3 := rfl
  have e4 : (act tW (fun op => { op with progress := 10 }) s3).op =
      { s3.op with progress := 10 } := by
    show { (bnd tW s3).op with progress := 10 } = _
    rw [bnd_op_of_terminal tW s3 (by rw [e3s]; decide) (by rw [e3s]; decide)]
  rw [hcs, e4]
  exact ⟨e3s, e3c, rfl⟩

/-- The progress loop preserves the completion-time invariant, and an
early exit happens only with the status observed cancelled. -/
theorem progressLoop_spec (tC : Nat) (iters : List Nat) :
    ∀ s : Sim, cancelInv s.op →
      cancelInv (progressLoop tC iters s).1.op ∧
      ((progressLoop tC iters s).2 = true →
        (progressLoop tC iters s).1.op.status = .cancelled) := by
  induction iters with
  | nil =>
    intro s h
    refine ⟨h, ?_⟩
    intro hx
    exact Bool.noConfusion hx
  | cons i restIters ih =>
    intro s h
    have hb := bnd_inv tC s h
    by_cases hc : (bnd tC s).op.status = .cancelled
    · unfold progressLoop
      rw [if_pos hc]
      exact ⟨hb, fun _ => hc⟩
    · unfold progressLoop
      rw [if_neg hc]
      apply ih
      show cancelInv { (bnd tC (bnd tC s)).op with progress := i }
      intro hx
      exact bnd_inv tC (bnd tC s) hb hx

/-- C5 amended: under every cancellation schedule and handler behaviour,
a run of one operation ends in a terminal status with its completion
time set; completed and failed runs end with progress 1.0; a cancelled
run keeps the progress last observed before the cancel, whether or not
progress had been recorded (`cancel_operation` never writes progress). -/
theorem terminal_state_invariant (h : Option (Except String PyVal))
    (tW tC : Nat) (cancelAt : Option Nat) :
    ((runOperation h tW tC cancelAt).op.status = OpStatus.completed ∨
     (runOperation h tW tC cancelAt).op.status = OpStatus.failed ∨
     (runOperation h tW tC cancelAt).op.status = OpStatus.cancelled) ∧
    (runOperation h tW tC cancelAt).op.completion_time.isSome = true ∧
    (((runOperation h tW tC cancelAt).op.status = OpStatus.completed ∨
      (runOperation h tW tC cancelAt).op.status = OpStatus.failed) →
      (runOperation h tW tC cancelAt).op.progress = 10) := by
  set s0 : Sim := ⟨initOp, cancelAt, none⟩ with hs0
  have hinv1 : cancelInv
      (act tC (fun op => { op with status := OpStatus.running }) s0).op := by
    show cancelInv { (bnd tC s0).op with status := OpStatus.running }
    intro hx
    exact OpStatus.noConfusion hx
  set s2 := workerStart tW tC s0 with hs2def
  have hinv2 : cancelInv s2.op := by
    show cancelInv { (bnd tC (act tC
      (fun op => { op with status := OpStatus.running }) s0)).op with
      start_time := some tW }
    intro hx
    exact bnd_inv tC _ hinv1 hx
  have hrun : runOperation h tW tC cancelAt = workerBody h tW tC s2 := rfl
  rw [hrun]
  cases h with
  | none =>
    have hbody : workerBody none tW tC s2 =
        flushCancel tC (failedSeq tW "Unknown command type" s2) := rfl
    have hfs := failedSeq_spec tW "Unknown command type" s2
    have hop : (flushCancel tC (failedSeq tW "Unknown command type" s2)).op =
        (failedSeq tW "Unknown command type" s2).op :=
      flushCancel_op_of_terminal tC _ (by rw [hfs.1]; decide)
        (by rw [hfs.1]; decide)
    rw [hbody, hop]
    refine ⟨Or.inr (Or.inl hfs.1), ?_, fun _ => hfs.2.2⟩
    rw [hfs.2.1]
    rfl
  | some hres =>
    have hL := progressLoop_spec tC [1, 2, 3, 4, 5, 6, 7, 8, 9] s2 hinv2
    set L := progressLoop tC [1, 2, 3, 4, 5, 6, 7, 8, 9] s2 with hLdef
    cases hres with
    | ok r =>
      have hbody : workerBody (some (.ok r)) tW tC s2 =
          (if L.2 then flushCancel tC L.1
           else if (bnd tC L.1).op.status = .cancelled then
             flushCancel tC (bnd tC L.1)
           else flushCancel tC (completedSeq tW r (bnd tC L.1))) := rfl
      rw [hbody]
      by_cases hl2 : L.2 = true
      · rw [if_pos hl2]
        have hst := hL.2 hl2
        have hop : (flushCancel tC L.1).op = L.1.op :=
          flushCancel_op_of_terminal tC _ (by rw [hst]; decide)
            (by rw [hst]; decide)
        rw [hop]
        refine ⟨Or.inr (Or.inr hst), hL.1 hst, ?_⟩
        rintro (hc | hc) <;> rw [hst] at hc <;> exact OpStatus.noConfusion hc
      · rw [if_neg hl2]
        have hb3 : cancelInv (bnd tC L.1).op := bnd_inv tC L.1 hL.1
        by_cases hc3 : (bnd tC L.1).op.status = .cancelled
        · rw [if_pos hc3]
          have hop : (flushCancel tC (bnd tC L.1)).op = (bnd tC L.1).op :=
            flushCancel_op_of_terminal tC _ (by rw [hc3]; decide)
              (by rw [hc3]; decide)
          rw [hop]
          refine ⟨Or.inr (Or.inr hc3), hb3 hc3, ?_⟩
          rintro (hc | hc) <;> rw [hc3] at hc <;> exact OpStatus.noConfusion hc
        · rw [if_neg hc3]
          have hcs := completedSeq_spec tW r (bnd tC L.1)
          have hop : (flushCancel tC (completedSeq tW r (bnd tC L.1))).op =
              (completedSeq tW r (bnd tC L.1)).op :=
            flushCancel_op_of_terminal tC _ (by rw [hcs.1]; decide)
              (by rw [hcs.1]; decide)
          rw [hop]
          refine ⟨Or.inl hcs.1, ?_, fun _ => hcs.2.2⟩
          rw [hcs.2.1]
          rfl
    | error msg =>
      have hbody : workerBody (some (.error msg)) tW tC s2 =
          (if L.2 then flushCancel tC L.1
           else if (bnd tC L.1).op.status = .cancelled then
             flushCancel tC (bnd tC L.1)
           else flushCancel tC (failedSeq tW msg (bnd tC L.1))) := rfl
      rw [hbody]
      by_cases hl2 : L.2 = true
      · rw [if_pos hl2]
        have hst := hL.2 hl2
        have hop : (flushCancel tC L.1).op = L.1.op :=
          flushCancel_op_of_terminal tC _ (by rw [hst]; decide)
            (by rw [hst]; decide)
        rw [hop]
        refine ⟨Or.inr (Or.inr hst), hL.1 hst, ?_⟩
        rintro (hc | hc) <;> rw [hst] at hc <;> exact OpStatus.noConfusion hc
      · rw [if_neg hl2]
        have hb3 : cancelInv (bnd tC L.1).op := bnd_inv tC L.1 hL.1
        by_cases hc3 : (bnd tC L.1).op.status = .cancelled
        · rw [if_pos hc3]
          have hop : (flushCancel tC (bnd tC L.1)).op = (bnd tC L.1).op :=
            flushCancel_op_of_terminal tC _ (by rw [hc3]; decide)
              (by rw [hc3]; decide)
          rw [hop]
          refine ⟨Or.inr (Or.inr hc3), hb3 hc3, ?_⟩
          rintro (hc | hc) <;> rw [hc3] at hc <;> exact OpStatus.noConfusion hc
        · rw [if_neg hc3]
          have hfs := failedSeq_spec tW msg (bnd tC L.1)
          have hop : (flushCancel tC (failedSeq tW msg (bnd tC L.1))).op =
              (failedSeq tW msg (bnd tC L.1)).op :=
            flushCancel_op_of_terminal tC _ (by rw [hfs.1]; decide)
              (by rw [hfs.1]; decide)
          rw [hop]
          refine ⟨Or.inr (Or.inl hfs.1), ?_, fun _ => hfs.2.2⟩
          rw [hfs.2.1]
          rfl

/-! ## Error sink (error_reporter.py) -/

/-- One in-memory error record (details and stack trace omitted; the
uuid is modelled by a fresh counter value). -/
structure ErrorRecord where
  id : Nat
  etype : String
  message : String
deriving Repr, DecidableEq

/-- `ErrorReporter` state: the in-memory list and the uuid source. -/
structure ErrorReporterState where
  errors : List ErrorRecord
  nextId : Nat
deriving Repr, DecidableEq

/-- `self.max_errors = 100`. -/
def max_errors : Nat := 100

/-- The freshly constructed reporter. -/
def initReporter : ErrorReporterState := ⟨[], 0⟩

/-- `ErrorReporter.report_error`: build the record, append it, pop the
oldest entry when the list now exceeds the bound, return the fresh id. -/
def newErrorRecord (s : ErrorReporterState) (etype message : String) :
    ErrorRecord :=
  ⟨s.nextId, etype, message⟩

def report_error (s : ErrorReporterState) (etype message : String) :
    Nat × ErrorReporterState :=
  (s.nextId,
   ⟨if max_errors < (s.errors ++ [newErrorRecord s etype message]).length then
      (s.errors ++ [newErrorRecord s etype message]).tail
    else s.errors ++ [newErrorRecord s etype message],
    s.nextId + 1⟩)

/-- Python `xs[-limit:]`; `-0` is `0`, so limit 0 yields the whole
list. -/
def lastSlice (l : List ErrorRecord) (limit : Nat) : List ErrorRecord :=
  if limit = 0 then l else l.drop (l.length - limit)

/-- `ErrorReporter.get_recent_errors`: filter by type when requested,
then the last `limit` entries; the state itself is read only. -/
def get_recent_errors (s : ErrorReporterState) (limit : Nat)
    (etFilter : Option String) : List ErrorRecord :=
  lastSlice
    (match etFilter with
     | some t => s.errors.filter (fun e => e.etype == t)
     | none => s.errors) limit

/-- `ErrorReporter.clear_errors`. -/
def clear_errors (s : ErrorReporterState) : ErrorReporterState :=
  ⟨[], s.nextId⟩

/-- The state-changing calls a client can make on the sink
(`get_recent_errors` and `get_error_by_id` read the state only, as their
Lean types already show). -/
inductive ReporterOp where
  | report : String → String → ReporterOp
  | clear

/-- Apply one call. -/
def applyOp (s : ErrorReporterState) : ReporterOp → ErrorReporterState
  | .report etype message => (report_error s etype message).2
  | .clear => clear_errors s

/-- Run a call sequence against a fresh reporter. -/
def runOps (ops : List ReporterOp) : ErrorReporterState :=
  ops.foldl applyOp initReporter

/-! ## Claim C10 -/

/-- A single report keeps the list at or under the bound. -/
theorem report_error_length (s : ErrorReporterState) (a b : String)
    (h : s.errors.length ≤ max_errors) :
    (report_error s a b).2.errors.length ≤ max_errors := by
  unfold report_error
  have hlenA : (s.errors ++ [newErrorRecord s a b]).length =
      s.errors.length + 1 := by
    rw [List.length_append]
    rfl
  by_cases hc : max_errors < (s.errors ++ [newErrorRecord s a b]).length
  · rw [if_pos hc]
    show ((s.errors ++ [newErrorRecord s a b]).tail).length ≤ max_errors
    rw [List.length_tail, hlenA]
    omega
  · rw [if_neg hc]
    show (s.errors ++ [newErrorRecord s a b]).length ≤ max_errors
    omega

/-- Every reachable reporter state keeps the list at or under the
bound. -/
theorem runOps_bound_aux (ops : List ReporterOp) :
    ∀ s : ErrorReporterState, s.errors.length ≤ max_errors →
    (ops.foldl applyOp s).errors.length ≤ max_errors := by
  induction ops with
  | nil => intro s h; exact h
  | cons op restOps ih =>
    intro s h
    cases op with
    | report a b => exact ih _ (report_error_length s a b h)
    | clear => exact ih _ (Nat.zero_le _)

/-- Fresh ids stay fresh across a report. -/
theorem report_error_ids (s : ErrorReporterState) (a b : String)
    (hids : ∀ r ∈ s.errors, r.id < s.nextId) :
    ∀ r ∈ (report_error s a b).2.errors,
      r.id < (report_error s a b).2.nextId := by
  intro r hr
  have hsub : r ∈ s.errors ++ [newErrorRecord s a b] := by
    unfold report_error at hr
    by_cases hc : max_errors <
        (s.errors ++ [newErrorRecord s a b]).length
    · rw [if_pos hc] at hr
      exact (List.tail_sublist _).subset hr
    · rw [if_neg hc] at hr
      exact hr
  show r.id < s.nextId + 1
  rcases List.mem_append.mp hsub with h1 | h1
  · exact Nat.lt_succ_of_lt (hids r h1)
  · rcases List.mem_singleton.mp h1 with rfl
    exact Nat.lt_succ_self _

/-- C10: the in-memory list never exceeds 100 records over any call
sequence; each report_error appends exactly one new record, pops the
oldest exactly when the list would exceed the bound, and returns a fresh
id never used by a stored record; clear_errors empties the list and
get_recent_errors reads the state without mutating it. -/
theorem error_sink_bound (s : ErrorReporterState) (etype message : String)
    (ops : List ReporterOp)
    (hlen : s.errors.length ≤ max_errors)
    (hids : ∀ r ∈ s.errors, r.id < s.nextId) :
    (runOps ops).errors.length ≤ max_errors ∧
    (report_error s etype message).1 = s.nextId ∧
    (report_error s etype message).2.errors.length ≤ max_errors ∧
    (s.errors.length < max_errors →
      (report_error s etype message).2.errors =
        s.errors ++ [newErrorRecord s etype message]) ∧
    (s.errors.length = max_errors →
      (report_error s etype message).2.errors =
        (s.errors ++ [newErrorRecord s etype message]).tail) ∧
    (∀ r ∈ s.errors, r.id ≠ (report_error s etype message).1) ∧
    (∀ r ∈ (report_error s etype message).2.errors,
      r.id < (report_error s etype message).2.nextId) ∧
    (clear_errors s).errors.length ≤ max_errors := by
  have hlenA : (s.errors ++ [newErrorRecord s etype message]).length =
      s.errors.length + 1 := by
    rw [List.length_append]
    rfl
  refine ⟨runOps_bound_aux ops initReporter (Nat.zero_le _), rfl,
    report_error_length s etype message hlen, ?_, ?_, ?_,
    report_error_ids s etype message hids, Nat.zero_le _⟩
  · intro hlt
    unfold report_error
    rw [if_neg (by rw [hlenA]; omega)]
  · intro heq
    unfold report_error
    rw [if_pos (by rw [hlenA]; omega)]
  · intro r hr hcontra
    have h2 : (report_error s etype message).1 = s.nextId := rfl
    rw [h2] at hcontra
    have := hids r hr
    omega

/-- C10 witness at a one-record state and a two-call sequence. -/
theorem error_sink_bound_witness :
    (runOps [.report "a" "b", .clear]).errors.length ≤ max_errors ∧
    (report_error ⟨[⟨0, "E", "m"⟩], 1⟩ "T" "x").1 =
      (⟨[⟨0, "E", "m"⟩], 1⟩ : ErrorReporterState).nextId ∧
    (report_error ⟨[⟨0, "E", "m"⟩], 1⟩ "T" "x").2.errors.length ≤
      max_errors ∧
    ((⟨[⟨0, "E", "m"⟩], 1⟩ : ErrorReporterState).errors.length < max_errors →
      (report_error ⟨[⟨0, "E", "m"⟩], 1⟩ "T" "x").2.errors =
        (⟨[⟨0, "E", "m"⟩], 1⟩ : ErrorReporterState).errors ++
          [newErrorRecord ⟨[⟨0, "E", "m"⟩], 1⟩ "T" "x"]) ∧
    ((⟨[⟨0, "E", "m"⟩], 1⟩ : ErrorReporterState).errors.length = max_errors →
      (report_error ⟨[⟨0, "E", "m"⟩], 1⟩ "T" "x").2.errors =
        ((⟨[⟨0, "E", "m"⟩], 1⟩ : ErrorReporterState).errors ++
          [newErrorRecord ⟨[⟨0, "E", "m"⟩], 1⟩ "T" "x"]).tail) ∧
    (∀ r ∈ (⟨[⟨0, "E", "m"⟩], 1⟩ : ErrorReporterState).errors,
      r.id ≠ (report_error ⟨[⟨0, "E", "m"⟩], 1⟩ "T" "x").1) ∧
    (∀ r ∈ (report_error ⟨[⟨0, "E", "m"⟩], 1⟩ "T" "x").2.errors,
      r.id < (report_error ⟨[⟨0, "E", "m"⟩], 1⟩ "T" "x").2.nextId) ∧
    (clear_errors ⟨[⟨0, "E", "m"⟩], 1⟩).errors.length ≤ max_errors :=
  error_sink_bound ⟨[⟨0, "E", "m"⟩], 1⟩ "T" "x" [.report "a" "b", .clear]
    (by decide) (by decide)

end UnityMCP
